import Mathlib

/-!
Verification of the thunderstorm-downloader specification against `src/main.py`.

The program is shallowly embedded: Python strings are modelled as lists of
characters (`Str`), path manipulation as pure list functions, the filesystem
as an explicit existence predicate threaded through the operations, and the
HTTP layer as a per-package oracle (`ModRemote`).  `os.sep` is `/` (the
program targets a POSIX host); `os.path.abspath` is modelled as the identity
(paths are taken relative to one fixed working directory).
-/

set_option autoImplicit false

abbrev Str := List Char

def str (s : String) : Str := s.data

/-- Boolean test that `pat` is a leading run of `s` (Python slice comparison). -/
def isPre : Str → Str → Bool
  | [], _ => true
  | _ :: _, [] => false
  | a :: as, b :: bs => if a = b then isPre as bs else false

/-- Boolean test that `pat` occurs as a contiguous substring of `s`
(Python's `in` operator on strings). -/
def containsSub (pat : Str) : Str → Bool
  | [] => isPre pat []
  | c :: cs => isPre pat (c :: cs) || containsSub pat cs

/-- Worker for `pyReplace`; the fuel bounds the number of characters still to
be scanned, so the recursion is structural. -/
def pyReplaceFuel (old new : Str) : Nat → Str → Str
  | 0, s => s
  | _ + 1, [] => []
  | fuel + 1, c :: cs =>
    if isPre old (c :: cs) = true ∧ old ≠ [] then
      new ++ pyReplaceFuel old new fuel ((c :: cs).drop old.length)
    else
      c :: pyReplaceFuel old new fuel cs

/-- Python `s.replace(old, new)`: every non-overlapping occurrence of `old`
is replaced by `new`, scanning left to right. -/
def pyReplace (old new s : Str) : Str := pyReplaceFuel old new s.length s

/-- Python `s.index(ch)`: position of the first occurrence, `none` when the
character is absent (where Python raises `ValueError`). -/
def strIndexOf : Str → Char → Option Nat
  | [], _ => none
  | c :: cs, t => if c = t then some 0 else (strIndexOf cs t).map (· + 1)

/-- Python `os.path.join(a, b)` on a POSIX host, for the shapes of argument
this program produces. -/
def osPathJoin (a b : Str) : Str :=
  if b.head? = some '/' then b
  else if a = [] then b
  else if a.getLast? = some '/' then a ++ b
  else a ++ '/' :: b

/-- Python `s.lower()` (`casefold` coincides with it on the ASCII names the
program compares). -/
def pyLower (s : Str) : Str := s.map Char.toLower

/-- Python `s.rstrip()`: drop trailing whitespace. -/
def rstrip (s : Str) : Str := (s.reverse.dropWhile (fun c => c.isWhitespace)).reverse

/-- Python `s.split(sep)` for a one-character separator. -/
def splitOnChar (sep : Char) : Str → List Str
  | [] => [[]]
  | c :: cs =>
    match splitOnChar sep cs with
    | [] => [[]]
    | r :: rs => if c = sep then [] :: r :: rs else (c :: r) :: rs

/-- Python `os.path.basename`: everything after the last separator. -/
def basename (p : Str) : Str := (p.reverse.takeWhile (fun c => c ≠ '/')).reverse

def BEPINEX_PACKAGE_NAME : Str := str "BepInExPack"

def BEPINEX : Str := str "BepInEx"

def BEPINEX_PLUGINS_DIR : Str := str "plugins"

def BEPINEX_PATCHERS_DIR : Str := str "patchers"

def BEPINEX_CONFIG_DIR : Str := str "config"

def MOD_DIR_IGNORE : List Str :=
  [str "readme.md", str "icon.png", str "manifest.json", str "changelog.md", str "license"]

/-- Lines 121-131 of `_get_file_install_path` in `src/main.py`: take the
text before the first separator (`file.index(os.sep)` raising `ValueError`
when there is none) and prepend the plugins directory unless that first
segment is a recognized subdirectory. -/
def installSubpath (f : Str) : Str :=
  match strIndexOf f '/' with
  | none => osPathJoin BEPINEX_PLUGINS_DIR f
  | some i =>
    if f.take i = BEPINEX_PLUGINS_DIR ∨ f.take i = BEPINEX_PATCHERS_DIR
        ∨ f.take i = BEPINEX_CONFIG_DIR
    then f
    else osPathJoin BEPINEX_PLUGINS_DIR f

/-- Embedding of `_get_file_install_path` from `src/main.py`. -/
def _get_file_install_path (game_dir : Str) (file : Str) (is_bepinex : Bool) : Str :=
  if is_bepinex then
    osPathJoin game_dir (pyReplace (BEPINEX_PACKAGE_NAME ++ ['/']) [] file)
  else
    osPathJoin (osPathJoin game_dir BEPINEX)
      (installSubpath (pyReplace (BEPINEX ++ ['/']) [] (pyReplace ['\\'] ['/'] file)))

def RECOGNIZED : List Str := [BEPINEX_PLUGINS_DIR, BEPINEX_PATCHERS_DIR, BEPINEX_CONFIG_DIR]

/-- Spec-side helper: remove one leading `seg/` path segment, as the spec's
phrase "strip any leading framework-directory segment" describes. -/
def stripLeadingSeg (seg : Str) (f : Str) : Str :=
  if isPre (seg ++ ['/']) f = true then f.drop (seg.length + 1) else f

/-- Spec-side wording "inspect the first remaining path segment; if it is one
of the recognized subdirectories keep the path as-is, otherwise (including a
top-level file with no directory separator) prepend the plugins directory". -/
def specSubpath (f : Str) : Str :=
  if '/' ∈ f ∧ f.takeWhile (fun c => c ≠ '/') ∈ RECOGNIZED then f
  else osPathJoin BEPINEX_PLUGINS_DIR f

/-- Resolver for a non-framework file exactly as claim C1 words it: normalize
separators, strip the leading framework-directory segment, keep the path as-is
when the first segment is recognized, otherwise put it under `plugins`, then
join under `<game_dir>/<framework_dir>/`. -/
def resolveSpecC1 (game_dir file : Str) : Str :=
  osPathJoin (osPathJoin game_dir BEPINEX)
    (specSubpath (stripLeadingSeg BEPINEX (pyReplace ['\\'] ['/'] file)))

/-- Resolver for a framework-package file exactly as claim C2 words it: strip
only the leading package-name segment and join under the game directory. -/
def resolveSpecC2 (game_dir file : Str) : Str :=
  osPathJoin game_dir (stripLeadingSeg BEPINEX_PACKAGE_NAME file)

/-- Resolver for a non-framework file as claim C1 must be amended: the
framework-directory name followed by a separator is removed at every
occurrence (a substring replacement), not only as a leading segment. -/
def resolveAmendedC1 (game_dir file : Str) : Str :=
  osPathJoin (osPathJoin game_dir BEPINEX)
    (specSubpath (pyReplace (BEPINEX ++ ['/']) [] (pyReplace ['\\'] ['/'] file)))

namespace Downloader

def SEP : Char := '-'

def TARGET_BASE_URL : Str := str "https://thunderstore.io/package/download"

/-- Embedding of the `Mod` NamedTuple: the four stored fields (`by` is
renamed `by_`, a Lean keyword); equality is field-wise, as for Python
tuples. -/
structure Mod where
  by_ : Str
  name : Str
  version : Str
  out_dir : Str := []
deriving DecidableEq

def Mod.package_name (m : Mod) : Str :=
  m.by_ ++ SEP :: m.name ++ SEP :: m.version

def Mod.url (m : Mod) : Str :=
  TARGET_BASE_URL ++ '/' :: m.by_ ++ '/' :: m.name ++ '/' :: m.version

/-- Extraction directory `os.path.abspath(os.path.join(out_dir, package_name))`.
The `out_dir` used at run time is the process-wide value assigned in `main`
(the class attribute assignment shadows the stored field), so it is passed
explicitly; `abspath` is the identity in this model. -/
def Mod.download_path (m : Mod) (outDir : Str) : Str :=
  osPathJoin outDir m.package_name

def Mod.is_bepinex (m : Mod) : Bool :=
  decide (pyLower m.name = pyLower BEPINEX_PACKAGE_NAME)

/-- Embedding of one element of the set comprehension in `_read_mods`:
`Mod(*line.rstrip().split(SEP))`; three segments fill the required fields, a
fourth lands in `out_dir`, any other arity raises `TypeError`. -/
def parseModLine (line : Str) : Except Str Mod :=
  match splitOnChar SEP (rstrip line) with
  | [a, b, c] => Except.ok ⟨a, b, c, []⟩
  | [a, b, c, d] => Except.ok ⟨a, b, c, d⟩
  | _ => Except.error (str "TypeError: wrong number of fields")

def parseMods : List Str → Except Str (List Mod)
  | [] => Except.ok []
  | l :: ls => do
    let m ← parseModLine l
    let ms ← parseMods ls
    pure (m :: ms)

/-- Embedding of `_read_mods`: parse every line, collapse duplicates (the set
comprehension), extract at most one framework entry, raise `ValueError` on
more than one. -/
def _read_mods (lines : List Str) : Except Str (List Mod × Option Mod) :=
  match parseMods lines with
  | Except.error e => Except.error e
  | Except.ok parsed =>
    match parsed.dedup.filter (fun m => m.is_bepinex) with
    | [] => Except.ok (parsed.dedup, none)
    | [bm] => Except.ok (parsed.dedup.filter (fun m => !(m == bm)), some bm)
    | _ => Except.error (str "ValueError: Multiple BepInExPack entries")

/-- Oracle describing the download cache and the remote service for one
package: whether its extraction directory already exists, whether the HTTP
GET succeeds, the recursive listing of the extracted archive (relative path
and is-directory flag, as `glob("**", recursive=True)` enumerates it), and
the manifest's dependency strings. -/
structure ModRemote where
  dirExists : Bool
  httpOk : Bool
  entries : List (Str × Bool)
  manifestDeps : List Str
deriving DecidableEq

inductive Event where
  | get (url : Str)
  | copied (dst : Str)
deriving DecidableEq

instance {e a : Type} [DecidableEq e] [DecidableEq a] : DecidableEq (Except e a) := fun x y =>
  match x, y with
  | Except.error u, Except.error v =>
    if h : u = v then isTrue (by rw [h]) else isFalse (fun hc => h (Except.error.inj hc))
  | Except.ok u, Except.ok v =>
    if h : u = v then isTrue (by rw [h]) else isFalse (fun hc => h (Except.ok.inj hc))
  | Except.error _, Except.ok _ => isFalse (fun hc => Except.noConfusion hc)
  | Except.ok _, Except.error _ => isFalse (fun hc => Except.noConfusion hc)

/-- Result of `_download`: the returned count (or the `HTTPError` raised by
`raise_for_status`), the HTTP requests issued, and whether the extraction
directory exists afterwards (`extractall` creates it). -/
structure DownloadOut where
  ret : Except Unit Nat
  events : List Event
  dirExists : Bool
deriving DecidableEq

/-- Embedding of `_download`. -/
def _download (m : Mod) (r : ModRemote) : DownloadOut :=
  if r.dirExists then ⟨Except.ok 0, [], true⟩
  else if r.httpOk then ⟨Except.ok 1, [Event.get m.url], true⟩
  else ⟨Except.error (), [Event.get m.url], false⟩

/-- Embedding of `Mod.depends_on_bepinex`: scan the names of the extracted
directories for the framework name, then the manifest dependency list. -/
def depends_on_bepinex (r : ModRemote) : Bool :=
  r.entries.any (fun e => e.2 && containsSub BEPINEX (basename e.1))
  || r.manifestDeps.any (fun d => containsSub BEPINEX d)

/-- The game-directory file system, abstracted to which install paths exist. -/
structure FS where
  existsPath : Str → Bool

/-- Candidate files of `_install`: the recursive listing filtered by the
ignore list (base name, lower-cased) and the directory check. -/
def installCandidates (entries : List (Str × Bool)) : List Str :=
  (entries.filter (fun e =>
      decide (pyLower (basename e.1) ∉ MOD_DIR_IGNORE) && !e.2)).map (fun e => e.1)

/-- The copy loop of `_install`: skip a file whose destination already
exists, otherwise copy it (after which the destination exists).  Directory
creation (`os.makedirs`) is not modelled: only destination-file existence is
ever queried.  Returns the copies made, in order, and the final file
system. -/
def installLoop (dlPath gameDir : Str) (isBep : Bool) :
    List Str → FS → List (Str × Str) × FS
  | [], fs => ([], fs)
  | f :: rest, fs =>
    if fs.existsPath (_get_file_install_path gameDir f isBep) then
      installLoop dlPath gameDir isBep rest fs
    else
      ((osPathJoin dlPath f, _get_file_install_path gameDir f isBep) ::
          (installLoop dlPath gameDir isBep rest
            ⟨fun p => decide (p = _get_file_install_path gameDir f isBep) || fs.existsPath p⟩).1,
        (installLoop dlPath gameDir isBep rest
          ⟨fun p => decide (p = _get_file_install_path gameDir f isBep) || fs.existsPath p⟩).2)

structure InstallOut where
  ret : Nat
  copies : List (Str × Str)
  fs : FS
  events : List Event

/-- Embedding of `_install`: skip entirely when the package neither is the
framework nor depends on it; otherwise copy every candidate file whose
destination is absent, and return 1 iff anything was newly copied. -/
def _install (outDir : Str) (m : Mod) (r : ModRemote) (gameDir : Str) (fs : FS) : InstallOut :=
  if !(depends_on_bepinex r) && !(m.is_bepinex) then ⟨0, [], fs, []⟩
  else
    ⟨if (installLoop (m.download_path outDir) gameDir m.is_bepinex
          (installCandidates r.entries) fs).1.isEmpty then 0 else 1,
      (installLoop (m.download_path outDir) gameDir m.is_bepinex
        (installCandidates r.entries) fs).1,
      (installLoop (m.download_path outDir) gameDir m.is_bepinex
        (installCandidates r.entries) fs).2,
      (installLoop (m.download_path outDir) gameDir m.is_bepinex
        (installCandidates r.entries) fs).1.map (fun c => Event.copied c.2)⟩

structure ModOut where
  triple : Nat × Nat × Nat
  fs : FS
  events : List Event

/-- Embedding of `_download_and_install_mod`: an `HTTPError` from the
download is caught and reported as `(0, 0, 1)`; otherwise install and report
`(downloaded, installed, 0)`. -/
def _download_and_install_mod (outDir : Str) (m : Mod) (r : ModRemote) (gameDir : Str)
    (fs : FS) : ModOut :=
  match (_download m r).ret with
  | Except.error _ => ⟨(0, 0, 1), fs, (_download m r).events⟩
  | Except.ok ret_dl =>
    ⟨(ret_dl, (_install outDir m r gameDir fs).ret, 0),
      (_install outDir m r gameDir fs).fs,
      (_download m r).events ++ (_install outDir m r gameDir fs).events⟩

def sumTriples (rs : List (Nat × Nat × Nat)) : Nat × Nat × Nat :=
  rs.foldr (fun a b => (a.1 + b.1, a.2.1 + b.2.1, a.2.2 + b.2.2)) (0, 0, 0)

/-- Per-package outcome triples of the worker pool; every task starts from
the same initial file system (tasks are independent, per the concurrency
model of the program). -/
def poolResults (outDir : Str) (mods : List Mod) (sc : Mod → ModRemote) (gameDir : Str)
    (fs : FS) : List (Nat × Nat × Nat) :=
  mods.map (fun m => (_download_and_install_mod outDir m (sc m) gameDir fs).triple)

structure PoolOut where
  res : Except Str (Nat × Nat × Nat × Nat)
  events : List Event

/-- Embedding of `_download_and_install_mods`: run the pool, then
`downloaded, installed, errs = map(sum, zip(*results))` — which raises
`ValueError` when `results` is empty — and print the summary, reported here
as (downloaded, installed, errors, total). -/
def poolEvents (outDir : Str) (mods : List Mod) (sc : Mod → ModRemote) (gameDir : Str)
    (fs : FS) : List Event :=
  (mods.map (fun m => (_download_and_install_mod outDir m (sc m) gameDir fs).events)).flatten

def _download_and_install_mods (outDir : Str) (mods : List Mod) (sc : Mod → ModRemote)
    (gameDir : Str) (fs : FS) : PoolOut :=
  match poolResults outDir mods sc gameDir fs with
  | [] => ⟨Except.error (str "ValueError: not enough values to unpack"),
      poolEvents outDir mods sc gameDir fs⟩
  | rs => ⟨Except.ok ((sumTriples rs).1, (sumTriples rs).2.1, (sumTriples rs).2.2, mods.length),
      poolEvents outDir mods sc gameDir fs⟩

/-- Inputs of one `main` run: CLI facts, mods-file lines, whether the game
directory already contains the framework directory, the per-package oracle
and the initial game-directory file system. -/
structure MainEnv where
  game_dir : Str
  game_dir_isdir : Bool
  out_dir : Option Str
  out_dir_isdir : Bool
  tmp_dir : Str
  mods_lines : List Str
  bepinex_installed : Bool
  remote : Mod → ModRemote
  fs : FS

/-- Observable outcome of a `main` run: the exit code (an uncaught Python
exception is `Except.error`), the printed summary line (downloaded,
installed, errors, total) when one is printed, and the network/copy events
in program order. -/
structure RunResult where
  exit : Except Str Nat
  summary : Option (Nat × Nat × Nat × Nat)
  events : List Event

/-- The framework phase of `main` followed by the worker pool, for a parsed
mods list: install the framework first when needed, abort on its failure or
absence, then run the pool and report. -/
def mainAfterParse (env : MainEnv) (mods : List Mod) (bepinex_mod : Option Mod) : RunResult :=
  if !env.bepinex_installed then
    match bepinex_mod with
    | none => ⟨Except.ok 1, none, []⟩
    | some bm =>
      if (_download_and_install_mod (env.out_dir.getD env.tmp_dir) bm (env.remote bm)
            env.game_dir env.fs).triple.2.2 = 1 then
        ⟨Except.ok 1, none,
          (_download_and_install_mod (env.out_dir.getD env.tmp_dir) bm (env.remote bm)
            env.game_dir env.fs).events⟩
      else
        match (_download_and_install_mods (env.out_dir.getD env.tmp_dir) mods env.remote
            env.game_dir
            (_download_and_install_mod (env.out_dir.getD env.tmp_dir) bm (env.remote bm)
              env.game_dir env.fs).fs).res with
        | Except.error e => ⟨Except.error e, none,
            (_download_and_install_mod (env.out_dir.getD env.tmp_dir) bm (env.remote bm)
              env.game_dir env.fs).events ++
            (_download_and_install_mods (env.out_dir.getD env.tmp_dir) mods env.remote
              env.game_dir
              (_download_and_install_mod (env.out_dir.getD env.tmp_dir) bm (env.remote bm)
                env.game_dir env.fs).fs).events⟩
        | Except.ok s => ⟨Except.ok 0, some s,
            (_download_and_install_mod (env.out_dir.getD env.tmp_dir) bm (env.remote bm)
              env.game_dir env.fs).events ++
            (_download_and_install_mods (env.out_dir.getD env.tmp_dir) mods env.remote
              env.game_dir
              (_download_and_install_mod (env.out_dir.getD env.tmp_dir) bm (env.remote bm)
                env.game_dir env.fs).fs).events⟩
  else
    match (_download_and_install_mods (env.out_dir.getD env.tmp_dir) mods env.remote
        env.game_dir env.fs).res with
    | Except.error e => ⟨Except.error e, none,
        (_download_and_install_mods (env.out_dir.getD env.tmp_dir) mods env.remote
          env.game_dir env.fs).events⟩
    | Except.ok s => ⟨Except.ok 0, some s,
        (_download_and_install_mods (env.out_dir.getD env.tmp_dir) mods env.remote
          env.game_dir env.fs).events⟩

/-- Embedding of `main` from argument validation onward. -/
def main (env : MainEnv) : RunResult :=
  if !env.game_dir_isdir then ⟨Except.ok 1, none, []⟩
  else if env.out_dir.isSome && !env.out_dir_isdir then ⟨Except.ok 1, none, []⟩
  else
    match _read_mods env.mods_lines with
    | Except.error e => ⟨Except.error e, none, []⟩
    | Except.ok (mods, bepinex_mod) => mainAfterParse env mods bepinex_mod

/-- Concrete run for claims C6-C9 witnesses: two regular packages, the first
one's download failing with an HTTP error, framework already installed. -/
def envC6 : MainEnv :=
  ⟨str "game", true, none, true, str "tmp", [str "a-Alpha-1", str "b-Beta-1"], true,
    fun m =>
      if m.name = str "Alpha" then ⟨false, false, [], []⟩
      else ⟨false, true, [(str "plugins", true), (str "plugins/Beta.dll", false)],
        [str "BepInEx-BepInExPack-5"]⟩,
    ⟨fun _ => false⟩⟩

/-- Concrete run with two framework-named entries in the mods file. -/
def envC7 : MainEnv :=
  ⟨str "game", true, none, true, str "tmp",
    [str "a-BepInExPack-1", str "b-BepInExPack-1"], true,
    fun _ => ⟨true, true, [], []⟩, ⟨fun _ => false⟩⟩

/-- Concrete run whose mods file holds only the framework entry. -/
def envC9 : MainEnv :=
  ⟨str "game", true, none, true, str "tmp", [str "bb-BepInExPack-5"], true,
    fun _ => ⟨true, true, [], []⟩, ⟨fun _ => false⟩⟩

/-- Concrete run for claim C8: framework absent from the game directory, one
framework entry and two regular entries, every download succeeding and every
install copying one file. -/
def envC8 : MainEnv :=
  ⟨str "game", true, none, true, str "tmp",
    [str "bb-BepInExPack-5", str "a-Alpha-1", str "b-Beta-1"], false,
    fun m =>
      if m.name = str "BepInExPack" then
        ⟨false, true, [(str "BepInExPack", true), (str "BepInExPack/core", true),
          (str "BepInExPack/core/BepInEx.dll", false)], []⟩
      else if m.name = str "Alpha" then
        ⟨false, true, [(str "plugins", true), (str "plugins/Alpha.dll", false)],
          [str "BepInEx-BepInExPack-5"]⟩
      else
        ⟨false, true, [(str "plugins", true), (str "plugins/Beta.dll", false)],
          [str "BepInEx-BepInExPack-5"]⟩,
    ⟨fun _ => false⟩⟩

end Downloader

-- ==================== theorems ====================

theorem strIndexOf_eq_none_iff (s : Str) (c : Char) : strIndexOf s c = none ↔ c ∉ s := by
  induction s with
  | nil => simp [strIndexOf]
  | cons a as ih =>
    by_cases h : a = c
    · subst h
      simp [strIndexOf]
    · simp only [strIndexOf, if_neg h, Option.map_eq_none', List.mem_cons, ih]
      constructor
      · rintro hn (rfl | hm)
        · exact h rfl
        · exact hn hm
      · intro hn hm
        exact hn (Or.inr hm)

theorem strIndexOf_some_mem {s : Str} {c : Char} {i : Nat}
    (h : strIndexOf s c = some i) : c ∈ s := by
  induction s generalizing i with
  | nil => simp [strIndexOf] at h
  | cons a as ih =>
    by_cases ha : a = c
    · exact ha ▸ List.mem_cons_self a as
    · simp only [strIndexOf, if_neg ha, Option.map_eq_some'] at h
      obtain ⟨j, hj, -⟩ := h
      exact List.mem_cons_of_mem a (ih hj)

theorem strIndexOf_some_take {s : Str} {c : Char} {i : Nat}
    (h : strIndexOf s c = some i) :
    s.take i = s.takeWhile (fun x => x ≠ c) := by
  induction s generalizing i with
  | nil => simp [strIndexOf] at h
  | cons a as ih =>
    by_cases ha : a = c
    · subst ha
      have h0 : i = 0 := by
        simp [strIndexOf] at h
        omega
      subst h0
      simp [List.takeWhile]
    · simp only [strIndexOf, if_neg ha, Option.map_eq_some'] at h
      obtain ⟨j, hj, hi⟩ := h
      subst hi
      simp [List.takeWhile, ha, List.take, ih hj]

theorem isPre_append_self (p r : Str) : isPre p (p ++ r) = true := by
  induction p with
  | nil => rfl
  | cons a as ih => simp [isPre, ih]

theorem pyReplaceFuel_of_not_contains {old : Str} (new : Str) :
    ∀ (s : Str) (fuel : Nat), containsSub old s = false →
      pyReplaceFuel old new fuel s = s := by
  intro s
  induction s with
  | nil =>
    intro fuel _
    cases fuel <;> rfl
  | cons c cs ih =>
    intro fuel h
    cases fuel with
    | zero => rfl
    | succ n =>
      simp only [containsSub, Bool.or_eq_false_iff] at h
      have hcond : ¬ (isPre old (c :: cs) = true ∧ old ≠ []) := by
        simp [h.1]
      simp only [pyReplaceFuel]
      rw [if_neg hcond, ih n h.2]

theorem pyReplace_of_not_contains {old : Str} (new : Str) {s : Str}
    (h : containsSub old s = false) : pyReplace old new s = s :=
  pyReplaceFuel_of_not_contains new s s.length h

theorem pyReplaceFuel_congr (old new : Str) :
    ∀ (n : Nat) (s : Str) (f₁ f₂ : Nat), s.length ≤ n → s.length ≤ f₁ → s.length ≤ f₂ →
      pyReplaceFuel old new f₁ s = pyReplaceFuel old new f₂ s := by
  intro n
  induction n with
  | zero =>
    intro s f₁ f₂ hn _ _
    have hs : s = [] := List.eq_nil_of_length_eq_zero (Nat.le_zero.mp hn)
    subst hs
    cases f₁ <;> cases f₂ <;> rfl
  | succ n ih =>
    intro s f₁ f₂ hn h1 h2
    cases s with
    | nil => cases f₁ <;> cases f₂ <;> rfl
    | cons c cs =>
      simp only [List.length_cons] at hn h1 h2
      cases f₁ with
      | zero => omega
      | succ m₁ =>
        cases f₂ with
        | zero => omega
        | succ m₂ =>
          simp only [pyReplaceFuel]
          by_cases hc : isPre old (c :: cs) = true ∧ old ≠ []
          · rw [if_pos hc, if_pos hc]
            have hol : 1 ≤ old.length := by
              cases old with
              | nil => exact absurd rfl hc.2
              | cons _ _ => simp
            congr 1
            apply ih <;> simp only [List.length_drop, List.length_cons] <;> omega
          · rw [if_neg hc, if_neg hc]
            congr 1
            apply ih <;> omega

theorem pyReplace_append_self {old : Str} (new rest : Str) (h : old ≠ []) :
    pyReplace old new (old ++ rest) = new ++ pyReplace old new rest := by
  cases old with
  | nil => exact absurd rfl h
  | cons o os =>
    show pyReplaceFuel (o :: os) new ((o :: os) ++ rest).length ((o :: os) ++ rest) = _
    have hlen : ((o :: os) ++ rest).length = (os.length + rest.length) + 1 := by
      simp only [List.length_append, List.length_cons]
      omega
    rw [hlen]
    simp only [List.cons_append, pyReplaceFuel]
    rw [if_pos ⟨by simpa using isPre_append_self (o :: os) rest, by simp⟩]
    congr 1
    have hdrop : List.drop (o :: os).length (o :: List.append os rest) = rest :=
      List.drop_left os rest
    rw [hdrop]
    exact pyReplaceFuel_congr (o :: os) new (os.length + rest.length) rest
      (os.length + rest.length) rest.length (by omega) (by omega) (by omega)

theorem installSubpath_eq_specSubpath (f : Str) : installSubpath f = specSubpath f := by
  unfold installSubpath specSubpath
  cases h : strIndexOf f '/' with
  | none =>
    have hm : '/' ∉ f := (strIndexOf_eq_none_iff f '/').mp h
    rw [if_neg fun hc => hm hc.1]
  | some i =>
    dsimp only
    have hm : '/' ∈ f := strIndexOf_some_mem h
    have ht : f.take i = f.takeWhile (fun x => x ≠ '/') := strIndexOf_some_take h
    by_cases hr : f.take i = BEPINEX_PLUGINS_DIR ∨ f.take i = BEPINEX_PATCHERS_DIR
        ∨ f.take i = BEPINEX_CONFIG_DIR
    · rw [if_pos hr, if_pos ⟨hm, by rw [← ht]; simpa [RECOGNIZED] using hr⟩]
    · have hspec : ¬ ('/' ∈ f ∧ f.takeWhile (fun c => c ≠ '/') ∈ RECOGNIZED) := by
        rintro ⟨-, hrec⟩
        rw [← ht] at hrec
        simp only [RECOGNIZED, List.mem_cons, List.mem_singleton] at hrec
        exact hr (by simpa using hrec)
      rw [if_neg hr, if_neg hspec]

/-- Claim C1 (counterexample): on the archive path "plugins/BepInEx/Foo.dll"
the claim's rule keeps the path as-is (its first segment is `plugins` and no
leading framework segment is present), yet the code also deletes the inner
"BepInEx/" occurrence, so the two resolvers disagree. -/
theorem claim_C1_counterexample :
    resolveSpecC1 (str "game") (str "plugins/BepInEx/Foo.dll")
        = str "game/BepInEx/plugins/BepInEx/Foo.dll"
    ∧ _get_file_install_path (str "game") (str "plugins/BepInEx/Foo.dll") false
        = str "game/BepInEx/plugins/Foo.dll"
    ∧ resolveSpecC1 (str "game") (str "plugins/BepInEx/Foo.dll")
        ≠ _get_file_install_path (str "game") (str "plugins/BepInEx/Foo.dll") false := by
  refine ⟨by decide, by decide, by decide⟩

/-- Claim C1 (amended): for every non-framework archive file path the resolver
normalizes path separators and removes every occurrence of the substring
"BepInEx/" (not only a leading framework-directory segment); then, if the
first remaining segment is one of plugins/patchers/config the path is kept,
otherwise (including a top-level file) it is put under `plugins`, and the
result is joined under `<game_dir>/BepInEx/`.  In particular
"plugins/Foo.dll" and "Foo.dll" both resolve to
`<game_dir>/BepInEx/plugins/Foo.dll`. -/
theorem claim_C1 :
    (∀ game_dir file,
        _get_file_install_path game_dir file false = resolveAmendedC1 game_dir file)
    ∧ _get_file_install_path (str "game") (str "plugins/Foo.dll") false
        = str "game/BepInEx/plugins/Foo.dll"
    ∧ _get_file_install_path (str "game") (str "Foo.dll") false
        = str "game/BepInEx/plugins/Foo.dll" := by
  refine ⟨?_, by decide, by decide⟩
  intro g file
  unfold _get_file_install_path resolveAmendedC1
  rw [if_neg Bool.false_ne_true]
  rw [installSubpath_eq_specSubpath]

/-- Claim C2 (counterexample): the code strips every occurrence of
"BepInExPack/" from a framework-archive path, not only the leading
package-name segment, so on "BepInExPack/core/BepInExPack/x.dll" the claim's
resolver and the code disagree. -/
theorem claim_C2_counterexample :
    resolveSpecC2 (str "game") (str "BepInExPack/core/BepInExPack/x.dll")
        = str "game/core/BepInExPack/x.dll"
    ∧ _get_file_install_path (str "game") (str "BepInExPack/core/BepInExPack/x.dll") true
        = str "game/core/x.dll"
    ∧ resolveSpecC2 (str "game") (str "BepInExPack/core/BepInExPack/x.dll")
        ≠ _get_file_install_path (str "game") (str "BepInExPack/core/BepInExPack/x.dll") true := by
  refine ⟨by decide, by decide, by decide⟩

/-- Claim C2 (amended): for a framework-archive file path the resolver removes
every occurrence of the substring "BepInExPack/" and joins the remainder
directly under the game directory; when the package-name segment occurs only
in leading position the originally claimed behavior follows, and in particular
"BepInExPack/core/x.dll" resolves to `<game_dir>/core/x.dll`. -/
theorem claim_C2 :
    (∀ game_dir rest, containsSub (BEPINEX_PACKAGE_NAME ++ ['/']) rest = false →
        rest.head? ≠ some '/' → game_dir ≠ [] → game_dir.getLast? ≠ some '/' →
        _get_file_install_path game_dir ((BEPINEX_PACKAGE_NAME ++ ['/']) ++ rest) true
          = game_dir ++ '/' :: rest)
    ∧ _get_file_install_path (str "game") (str "BepInExPack/core/x.dll") true
        = str "game/core/x.dll" := by
  refine ⟨?_, by decide⟩
  intro g rest hno hhead hg hlast
  unfold _get_file_install_path
  rw [if_pos rfl]
  rw [pyReplace_append_self [] rest (by simp [BEPINEX_PACKAGE_NAME, str]),
    pyReplace_of_not_contains [] hno]
  unfold osPathJoin
  simp only [List.nil_append]
  rw [if_neg hhead, if_neg hg, if_neg hlast]

/-- Claim C2 (witness): concrete instance of the amended theorem at the
path "BepInExPack/core/x.dll". -/
theorem claim_C2_witness :
    containsSub (BEPINEX_PACKAGE_NAME ++ ['/']) (str "core/x.dll") = false
    ∧ _get_file_install_path (str "game") ((BEPINEX_PACKAGE_NAME ++ ['/']) ++ str "core/x.dll") true
        = str "game" ++ '/' :: str "core/x.dll" :=
  ⟨by decide, claim_C2.1 (str "game") (str "core/x.dll")
    (by decide) (by decide) (by decide) (by decide)⟩

namespace Downloader

theorem installLoop_monotone (dlPath gameDir : Str) (isBep : Bool) :
    ∀ (files : List Str) (fs : FS) (p : Str), fs.existsPath p = true →
      (installLoop dlPath gameDir isBep files fs).2.existsPath p = true := by
  intro files
  induction files with
  | nil => intro fs p h; exact h
  | cons f rest ih =>
    intro fs p h
    simp only [installLoop]
    by_cases hex : fs.existsPath (_get_file_install_path gameDir f isBep) = true
    · rw [if_pos hex]
      exact ih fs p h
    · rw [if_neg hex]
      exact ih _ p (by simp [h])

theorem installLoop_preserves (dlPath gameDir : Str) (isBep : Bool) :
    ∀ (files : List Str) (fs : FS), ∀ f ∈ files,
      (installLoop dlPath gameDir isBep files fs).2.existsPath
        (_get_file_install_path gameDir f isBep) = true := by
  intro files
  induction files with
  | nil => intro fs f hf; cases hf
  | cons g rest ih =>
    intro fs f hf
    simp only [installLoop]
    by_cases hex : fs.existsPath (_get_file_install_path gameDir g isBep) = true
    · rw [if_pos hex]
      rcases List.mem_cons.mp hf with rfl | hm
      · exact installLoop_monotone dlPath gameDir isBep rest fs _ hex
      · exact ih fs f hm
    · rw [if_neg hex]
      rcases List.mem_cons.mp hf with rfl | hm
      · exact installLoop_monotone dlPath gameDir isBep rest
          ⟨fun p => decide (p = _get_file_install_path gameDir f isBep) || fs.existsPath p⟩
          _ (by simp)
      · exact ih _ f hm

theorem installLoop_skip_all (dlPath gameDir : Str) (isBep : Bool) :
    ∀ (files : List Str) (fs : FS),
      (∀ f ∈ files, fs.existsPath (_get_file_install_path gameDir f isBep) = true) →
      installLoop dlPath gameDir isBep files fs = ([], fs) := by
  intro files
  induction files with
  | nil => intro fs _; rfl
  | cons g rest ih =>
    intro fs h
    simp only [installLoop]
    rw [if_pos (h g (List.mem_cons_self g rest))]
    exact ih fs (fun f hf => h f (List.mem_cons_of_mem g hf))

theorem installLoop_copies_fresh (dlPath gameDir : Str) (isBep : Bool) :
    ∀ (files : List Str) (fs : FS) (sd : Str × Str),
      sd ∈ (installLoop dlPath gameDir isBep files fs).1 →
      fs.existsPath sd.2 = false ∧ ∃ f ∈ files, sd.1 = osPathJoin dlPath f ∧
        sd.2 = _get_file_install_path gameDir f isBep := by
  intro files
  induction files with
  | nil => intro fs sd h; cases h
  | cons g rest ih =>
    intro fs sd h
    simp only [installLoop] at h
    by_cases hex : fs.existsPath (_get_file_install_path gameDir g isBep) = true
    · rw [if_pos hex] at h
      obtain ⟨hfresh, f, hf, h1, h2⟩ := ih fs sd h
      exact ⟨hfresh, f, List.mem_cons_of_mem g hf, h1, h2⟩
    · rw [if_neg hex] at h
      rcases List.mem_cons.mp h with rfl | hm
      · exact ⟨by simpa using hex, g, List.mem_cons_self g rest, rfl, rfl⟩
      · obtain ⟨hfresh, f, hf, h1, h2⟩ := ih _ sd hm
        refine ⟨?_, f, List.mem_cons_of_mem g hf, h1, h2⟩
        have hfresh' : (decide (sd.2 = _get_file_install_path gameDir g isBep)
            || fs.existsPath sd.2) = false := hfresh
        exact (Bool.or_eq_false_iff.mp hfresh').2

theorem _install_gate (outDir : Str) (m : Mod) (r : ModRemote) (gameDir : Str) (fs : FS)
    (h : (!(depends_on_bepinex r) && !(m.is_bepinex)) = true) :
    _install outDir m r gameDir fs = ⟨0, [], fs, []⟩ := by
  unfold _install
  rw [if_pos h]

theorem _install_ret (outDir : Str) (m : Mod) (r : ModRemote) (gameDir : Str) (fs : FS)
    (h : ¬ (!(depends_on_bepinex r) && !(m.is_bepinex)) = true) :
    (_install outDir m r gameDir fs).ret =
      if (installLoop (m.download_path outDir) gameDir m.is_bepinex
          (installCandidates r.entries) fs).1.isEmpty then 0 else 1 := by
  unfold _install
  rw [if_neg h]

theorem _install_copies (outDir : Str) (m : Mod) (r : ModRemote) (gameDir : Str) (fs : FS)
    (h : ¬ (!(depends_on_bepinex r) && !(m.is_bepinex)) = true) :
    (_install outDir m r gameDir fs).copies =
      (installLoop (m.download_path outDir) gameDir m.is_bepinex
        (installCandidates r.entries) fs).1 := by
  unfold _install
  rw [if_neg h]

theorem _install_fs (outDir : Str) (m : Mod) (r : ModRemote) (gameDir : Str) (fs : FS)
    (h : ¬ (!(depends_on_bepinex r) && !(m.is_bepinex)) = true) :
    (_install outDir m r gameDir fs).fs =
      (installLoop (m.download_path outDir) gameDir m.is_bepinex
        (installCandidates r.entries) fs).2 := by
  unfold _install
  rw [if_neg h]

/-- Claim C3: for every package and every file of its extraction directory
whose lower-cased base name is in the ignore list, the install operation
never copies that file — every copy originates from a non-directory entry
whose lower-cased base name is outside the ignore list. -/
theorem claim_C3 : ∀ (outDir : Str) (m : Mod) (r : ModRemote) (gameDir : Str) (fs : FS),
    ∀ sd ∈ (_install outDir m r gameDir fs).copies,
      ∃ f, sd.1 = osPathJoin (m.download_path outDir) f ∧ (f, false) ∈ r.entries ∧
        pyLower (basename f) ∉ MOD_DIR_IGNORE := by
  intro outDir m r gameDir fs sd hsd
  unfold _install at hsd
  by_cases hgate : (!(depends_on_bepinex r) && !(m.is_bepinex)) = true
  · rw [if_pos hgate] at hsd
    exact absurd hsd (List.not_mem_nil sd)
  · rw [if_neg hgate] at hsd
    obtain ⟨-, f, hf, h1, h2⟩ := installLoop_copies_fresh (m.download_path outDir) gameDir
      m.is_bepinex (installCandidates r.entries) fs sd hsd
    obtain ⟨e, he, rfl⟩ := List.mem_map.mp hf
    have hmem := List.mem_filter.mp he
    have hcond := hmem.2
    rw [Bool.and_eq_true] at hcond
    have he2 : e.2 = false := by
      have := hcond.2
      simpa using this
    have hig : pyLower (basename e.1) ∉ MOD_DIR_IGNORE := of_decide_eq_true hcond.1
    refine ⟨e.1, h1, ?_, hig⟩
    have : (e.1, false) = e := by
      rw [← he2]
    rw [this]
    exact hmem.1

/-- Claim C3 (witness): a concrete install run with one non-ignored file,
instantiating the theorem at its copy. -/
theorem claim_C3_witness :
    (str "out/bb-BepInExPack-5/BepInExPack/core/x.dll", str "game/core/x.dll")
      ∈ (_install (str "out") ⟨str "bb", str "BepInExPack", str "5", []⟩
          ⟨true, true, [(str "BepInExPack/core/x.dll", false)], []⟩ (str "game")
          ⟨fun _ => false⟩).copies
    ∧ ∃ f, (str "out/bb-BepInExPack-5/BepInExPack/core/x.dll", str "game/core/x.dll").1
          = osPathJoin ((⟨str "bb", str "BepInExPack", str "5", []⟩ : Mod).download_path (str "out")) f
        ∧ (f, false) ∈ [(str "BepInExPack/core/x.dll", false)]
        ∧ pyLower (basename f) ∉ MOD_DIR_IGNORE :=
  ⟨by decide, claim_C3 (str "out") ⟨str "bb", str "BepInExPack", str "5", []⟩
    ⟨true, true, [(str "BepInExPack/core/x.dll", false)], []⟩ (str "game")
    ⟨fun _ => false⟩ _ (by decide)⟩

/-- Claim C4: a fetch whose extraction directory already exists is a no-op —
no HTTP request is issued, nothing is written (the cache state is unchanged)
and the returned download count is 0; moreover after any non-failing fetch
the directory exists, so a subsequent fetch is such a no-op (idempotence). -/
theorem claim_C4 :
    (∀ (m : Mod) (r : ModRemote), r.dirExists = true →
        _download m r = ⟨Except.ok 0, [], true⟩)
    ∧ (∀ (m m' : Mod) (r r' : ModRemote), (_download m r).ret ≠ Except.error () →
        r'.dirExists = (_download m r).dirExists →
        _download m' r' = ⟨Except.ok 0, [], true⟩) := by
  constructor
  · intro m r h
    unfold _download
    rw [if_pos h]
  · intro m m' r r' hret hdir
    by_cases h1 : r.dirExists = true
    · have hd : (_download m r).dirExists = true := by
        unfold _download
        rw [if_pos h1]
      unfold _download
      rw [if_pos (hdir.trans hd)]
    · by_cases h2 : r.httpOk = true
      · have hd : (_download m r).dirExists = true := by
          unfold _download
          rw [if_neg h1, if_pos h2]
        unfold _download
        rw [if_pos (hdir.trans hd)]
      · exfalso
        apply hret
        show (_download m r).ret = Except.error ()
        unfold _download
        rw [if_neg h1, if_neg h2]

/-- Claim C4 (witness): the no-op fetch at a concrete descriptor whose
extraction directory exists. -/
theorem claim_C4_witness :
    (ModRemote.mk true true [] []).dirExists = true
    ∧ _download ⟨str "a", str "B", str "1", []⟩ ⟨true, true, [], []⟩
        = ⟨Except.ok 0, [], true⟩ :=
  ⟨rfl, claim_C4.1 ⟨str "a", str "B", str "1", []⟩ ⟨true, true, [], []⟩ rfl⟩

/-- Claim C5: install copies a file only when its resolved destination does
not already exist (a pre-existing destination is never the target of a
copy), the return value is 1 exactly when at least one file was newly
copied, and re-running install on the file system produced by an install
copies nothing and returns 0 ("already installed"). -/
theorem claim_C5 :
    (∀ (outDir : Str) (m : Mod) (r : ModRemote) (gameDir : Str) (fs : FS) (d : Str),
        fs.existsPath d = true →
        ∀ s, (s, d) ∉ (_install outDir m r gameDir fs).copies)
    ∧ (∀ (outDir : Str) (m : Mod) (r : ModRemote) (gameDir : Str) (fs : FS),
        ((_install outDir m r gameDir fs).ret = 1
          ↔ (_install outDir m r gameDir fs).copies ≠ []))
    ∧ (∀ (outDir : Str) (m : Mod) (r : ModRemote) (gameDir : Str) (fs : FS),
        (_install outDir m r gameDir ((_install outDir m r gameDir fs).fs)).ret = 0
        ∧ (_install outDir m r gameDir ((_install outDir m r gameDir fs).fs)).copies = []) := by
  refine ⟨?_, ?_, ?_⟩
  · intro outDir m r gameDir fs d hd s hsd
    unfold _install at hsd
    by_cases hgate : (!(depends_on_bepinex r) && !(m.is_bepinex)) = true
    · rw [if_pos hgate] at hsd
      exact absurd hsd (List.not_mem_nil _)
    · rw [if_neg hgate] at hsd
      have := (installLoop_copies_fresh (m.download_path outDir) gameDir m.is_bepinex
        (installCandidates r.entries) fs (s, d) hsd).1
      rw [hd] at this
      cases this
  · intro outDir m r gameDir fs
    by_cases hgate : (!(depends_on_bepinex r) && !(m.is_bepinex)) = true
    · rw [_install_gate outDir m r gameDir fs hgate]
      simp
    · rw [_install_ret outDir m r gameDir fs hgate,
        _install_copies outDir m r gameDir fs hgate]
      by_cases hemp :
          (installLoop (m.download_path outDir) gameDir m.is_bepinex
            (installCandidates r.entries) fs).1.isEmpty = true
      · rw [if_pos hemp]
        simp [List.isEmpty_iff.mp hemp]
      · rw [if_neg hemp]
        have hne : (installLoop (m.download_path outDir) gameDir m.is_bepinex
            (installCandidates r.entries) fs).1 ≠ [] := by
          intro hc
          exact hemp (by rw [hc]; rfl)
        simp [hne]
  · intro outDir m r gameDir fs
    by_cases hgate : (!(depends_on_bepinex r) && !(m.is_bepinex)) = true
    · rw [_install_gate outDir m r gameDir ((_install outDir m r gameDir fs).fs) hgate]
      exact ⟨rfl, rfl⟩
    · have hall : ∀ f ∈ installCandidates r.entries,
          ((_install outDir m r gameDir fs).fs).existsPath
            (_get_file_install_path gameDir f m.is_bepinex) = true := by
        intro f hf
        rw [_install_fs outDir m r gameDir fs hgate]
        exact installLoop_preserves (m.download_path outDir) gameDir m.is_bepinex
          (installCandidates r.entries) fs f hf
      have hskip := installLoop_skip_all (m.download_path outDir) gameDir m.is_bepinex
        (installCandidates r.entries) ((_install outDir m r gameDir fs).fs) hall
      rw [_install_ret outDir m r gameDir ((_install outDir m r gameDir fs).fs) hgate,
        _install_copies outDir m r gameDir ((_install outDir m r gameDir fs).fs) hgate,
        hskip]
      exact ⟨rfl, rfl⟩

/-- Claim C5 (witness): a destination that already exists is not among the
copies of a concrete install run. -/
theorem claim_C5_witness :
    (FS.mk (fun _ => true)).existsPath (str "game/core/x.dll") = true
    ∧ (str "s", str "game/core/x.dll") ∉
        (_install (str "out") ⟨str "bb", str "BepInExPack", str "5", []⟩
          ⟨true, true, [(str "BepInExPack/core/x.dll", false)], []⟩ (str "game")
          ⟨fun _ => true⟩).copies :=
  ⟨rfl, claim_C5.1 (str "out") ⟨str "bb", str "BepInExPack", str "5", []⟩
      ⟨true, true, [(str "BepInExPack/core/x.dll", false)], []⟩ (str "game")
      ⟨fun _ => true⟩ (str "game/core/x.dll") rfl (str "s")⟩

end Downloader

namespace Downloader

/-- Claim C10: parsing a mods-file line succeeds exactly when the line splits
on the separator into three or four segments; a fourth segment is silently
stored in the descriptor's output-directory field — which participates in
descriptor equality — and any other arity (including a blank line, which
splits into a single empty segment) raises an error. -/
theorem claim_C10 :
    (∀ (line a b c : Str), splitOnChar SEP (rstrip line) = [a, b, c] →
        parseModLine line = Except.ok ⟨a, b, c, []⟩)
    ∧ (∀ (line a b c d : Str), splitOnChar SEP (rstrip line) = [a, b, c, d] →
        parseModLine line = Except.ok ⟨a, b, c, d⟩)
    ∧ (∀ (line : Str), (splitOnChar SEP (rstrip line)).length < 3 ∨
          4 < (splitOnChar SEP (rstrip line)).length →
        ∃ e, parseModLine line = Except.error e)
    ∧ (∃ e, parseModLine [] = Except.error e)
    ∧ (∀ (a b c d d' : Str), d ≠ d' → (⟨a, b, c, d⟩ : Mod) ≠ ⟨a, b, c, d'⟩) := by
  refine ⟨?_, ?_, ?_, ?_, ?_⟩
  · intro line a b c h
    unfold parseModLine
    rw [h]
  · intro line a b c d h
    unfold parseModLine
    rw [h]
  · intro line h
    unfold parseModLine
    generalize hs : splitOnChar SEP (rstrip line) = l at h ⊢
    rcases l with _ | ⟨a, _ | ⟨b, _ | ⟨c, _ | ⟨d, _ | ⟨e5, rest⟩⟩⟩⟩⟩
    · exact ⟨_, rfl⟩
    · exact ⟨_, rfl⟩
    · exact ⟨_, rfl⟩
    · simp at h
    · simp at h
    · exact ⟨_, rfl⟩
  · exact ⟨_, rfl⟩
  · intro a b c d d' hne hc
    injection hc with h1 h2 h3 h4
    exact hne h4

/-- Claim C10 (witness): a four-segment line parses with the fourth segment
stored in the output-directory field. -/
theorem claim_C10_witness :
    splitOnChar SEP (rstrip (str "a-b-c-d")) = [str "a", str "b", str "c", str "d"]
    ∧ parseModLine (str "a-b-c-d") = Except.ok ⟨str "a", str "b", str "c", str "d"⟩ :=
  ⟨by decide, claim_C10.2.1 (str "a-b-c-d") (str "a") (str "b") (str "c") (str "d") (by decide)⟩

theorem _read_mods_ok (lines : List Str) (parsed : List Mod)
    (hp : parseMods lines = Except.ok parsed) :
    _read_mods lines =
      match parsed.dedup.filter (fun m => m.is_bepinex) with
      | [] => Except.ok (parsed.dedup, none)
      | [bm] => Except.ok (parsed.dedup.filter (fun m => !(m == bm)), some bm)
      | _ => Except.error (str "ValueError: Multiple BepInExPack entries") := by
  unfold _read_mods
  rw [hp]

/-- Claim C7: a mods file whose lines all parse but yield more than one
framework-named descriptor after duplicates collapse makes `_read_mods`
raise a fatal input error; `main` then terminates with that uncaught error
and no network request is issued (the event trace is empty). -/
theorem claim_C7 : ∀ (env : MainEnv) (parsed : List Mod),
    env.game_dir_isdir = true →
    (env.out_dir.isSome && !env.out_dir_isdir) = false →
    parseMods env.mods_lines = Except.ok parsed →
    1 < (parsed.dedup.filter (fun m => m.is_bepinex)).length →
    (∃ e, _read_mods env.mods_lines = Except.error e)
    ∧ (∃ e, (main env).exit = Except.error e)
    ∧ (main env).events = [] := by
  intro env parsed hgd hod hp hlen
  have hrm : ∃ e, _read_mods env.mods_lines = Except.error e := by
    rw [_read_mods_ok env.mods_lines parsed hp]
    generalize hf : parsed.dedup.filter (fun m => m.is_bepinex) = bl at hlen ⊢
    rcases bl with _ | ⟨bm, _ | ⟨bm2, rest⟩⟩
    · simp at hlen
    · simp at hlen
    · exact ⟨_, rfl⟩
  obtain ⟨e, he⟩ := hrm
  have hmain : main env = ⟨Except.error e, none, []⟩ := by
    unfold main
    rw [if_neg (by simp [hgd]), if_neg (by simp [hod]), he]
  exact ⟨⟨e, he⟩, ⟨e, by rw [hmain]⟩, by rw [hmain]⟩

/-- Claim C7 (witness): the concrete mods file with two framework entries. -/
theorem claim_C7_witness :
    (∃ e, _read_mods envC7.mods_lines = Except.error e)
    ∧ (∃ e, (main envC7).exit = Except.error e)
    ∧ (main envC7).events = [] :=
  claim_C7 envC7
    [⟨str "a", str "BepInExPack", str "1", []⟩, ⟨str "b", str "BepInExPack", str "1", []⟩]
    rfl rfl (by decide) (by decide)

/-- Claim C9: with an empty non-framework package list the aggregation step
of the worker pool raises (`zip(*results)` unpacks into three names), so a
run whose mods file holds only the framework entry ends in an uncaught error
and prints no summary; with at least one package the aggregation is
defined. -/
theorem claim_C9 :
    (∀ (outDir gameDir : Str) (sc : Mod → ModRemote) (fs : FS),
        (_download_and_install_mods outDir [] sc gameDir fs).res
          = Except.error (str "ValueError: not enough values to unpack"))
    ∧ (∀ (outDir gameDir : Str) (mods : List Mod) (sc : Mod → ModRemote) (fs : FS),
        mods ≠ [] →
        ∃ s, (_download_and_install_mods outDir mods sc gameDir fs).res = Except.ok s)
    ∧ (∀ (env : MainEnv) (bm : Mod),
        env.game_dir_isdir = true →
        (env.out_dir.isSome && !env.out_dir_isdir) = false →
        env.bepinex_installed = true →
        _read_mods env.mods_lines = Except.ok ([], some bm) →
        (∃ e, (main env).exit = Except.error e) ∧ (main env).summary = none) := by
  refine ⟨?_, ?_, ?_⟩
  · intro outDir gameDir sc fs
    rfl
  · intro outDir gameDir mods sc fs hne
    cases mods with
    | nil => exact absurd rfl hne
    | cons m ms => exact ⟨_, rfl⟩
  · intro env bm hgd hod hbi hread
    have hafter : mainAfterParse env [] (some bm) =
        ⟨Except.error (str "ValueError: not enough values to unpack"), none, []⟩ := by
      unfold mainAfterParse
      rw [if_neg (by simp [hbi])]
      rfl
    have hmain : main env =
        ⟨Except.error (str "ValueError: not enough values to unpack"), none, []⟩ := by
      unfold main
      rw [if_neg (by simp [hgd]), if_neg (by simp [hod]), hread]
      exact hafter
    exact ⟨⟨_, by rw [hmain]⟩, by rw [hmain]⟩

/-- Claim C9 (witness): the concrete mods file holding only the framework
entry. -/
theorem claim_C9_witness :
    _read_mods envC9.mods_lines
      = Except.ok ([], some ⟨str "bb", str "BepInExPack", str "5", []⟩)
    ∧ (∃ e, (main envC9).exit = Except.error e)
    ∧ (main envC9).summary = none :=
  ⟨by decide,
   (claim_C9.2.2 envC9 ⟨str "bb", str "BepInExPack", str "5", []⟩ rfl rfl rfl (by decide)).1,
   (claim_C9.2.2 envC9 ⟨str "bb", str "BepInExPack", str "5", []⟩ rfl rfl rfl (by decide)).2⟩

end Downloader

namespace Downloader

theorem sumTriples_cons (t : Nat × Nat × Nat) (rs : List (Nat × Nat × Nat)) :
    sumTriples (t :: rs) = (t.1 + (sumTriples rs).1, t.2.1 + (sumTriples rs).2.1,
      t.2.2 + (sumTriples rs).2.2) := rfl

theorem _download_and_install_mod_errs (outDir : Str) (m : Mod) (r : ModRemote)
    (gameDir : Str) (fs : FS) :
    (_download_and_install_mod outDir m r gameDir fs).triple.2.2
      = if (!r.dirExists && !r.httpOk) = true then 1 else 0 := by
  by_cases h1 : r.dirExists = true
  · have hd : _download m r = ⟨Except.ok 0, [], true⟩ := by
      unfold _download
      rw [if_pos h1]
    unfold _download_and_install_mod
    rw [hd, if_neg (by simp [h1])]
  · by_cases h2 : r.httpOk = true
    · have hd : _download m r = ⟨Except.ok 1, [Event.get m.url], true⟩ := by
        unfold _download
        rw [if_neg h1, if_pos h2]
      unfold _download_and_install_mod
      rw [hd, if_neg (by simp [h2])]
    · have hd : _download m r = ⟨Except.error (), [Event.get m.url], false⟩ := by
        unfold _download
        rw [if_neg h1, if_neg h2]
      unfold _download_and_install_mod
      rw [hd, if_pos (by simp [Bool.not_eq_true] at h1 h2; simp [h1, h2])]

/-- Claim C6: a package whose download raises a non-success HTTP status is
reported with the outcome tuple (0, 0, 1); the pool's error count is exactly
the number of packages whose download fails; a package's remote behaviour
does not influence the results of a pool that does not contain it; and a run
that reaches the worker pool with a non-empty package list exits with code 0
whatever the download outcomes are. -/
theorem claim_C6 :
    (∀ (outDir : Str) (m : Mod) (r : ModRemote) (gameDir : Str) (fs : FS),
        r.dirExists = false → r.httpOk = false →
        (_download_and_install_mod outDir m r gameDir fs).triple = (0, 0, 1))
    ∧ (∀ (outDir gameDir : Str) (mods : List Mod) (sc : Mod → ModRemote) (fs : FS),
        (sumTriples (poolResults outDir mods sc gameDir fs)).2.2
          = mods.countP (fun m => !(sc m).dirExists && !(sc m).httpOk))
    ∧ (∀ (outDir gameDir : Str) (mods : List Mod) (sc sc' : Mod → ModRemote) (fs : FS)
        (m : Mod), (∀ m', m' ≠ m → sc m' = sc' m') → m ∉ mods →
        poolResults outDir mods sc gameDir fs = poolResults outDir mods sc' gameDir fs)
    ∧ (∀ (env : MainEnv) (mods : List Mod) (bm : Option Mod),
        env.game_dir_isdir = true →
        (env.out_dir.isSome && !env.out_dir_isdir) = false →
        env.bepinex_installed = true →
        _read_mods env.mods_lines = Except.ok (mods, bm) →
        mods ≠ [] →
        (main env).exit = Except.ok 0) := by
  refine ⟨?_, ?_, ?_, ?_⟩
  · intro outDir m r gameDir fs h1 h2
    have hd : _download m r = ⟨Except.error (), [Event.get m.url], false⟩ := by
      unfold _download
      rw [if_neg (by simp [h1]), if_neg (by simp [h2])]
    unfold _download_and_install_mod
    rw [hd]
  · intro outDir gameDir mods sc fs
    induction mods with
    | nil => rfl
    | cons m ms ih =>
      have hpr : poolResults outDir (m :: ms) sc gameDir fs
          = (_download_and_install_mod outDir m (sc m) gameDir fs).triple
            :: poolResults outDir ms sc gameDir fs := rfl
      rw [hpr, sumTriples_cons, List.countP_cons, ih,
        _download_and_install_mod_errs outDir m (sc m) gameDir fs]
      by_cases hc : (!(sc m).dirExists && !(sc m).httpOk) = true
      · rw [if_pos hc]
        exact Nat.add_comm 1 (List.countP (fun m => !(sc m).dirExists && !(sc m).httpOk) ms)
      · rw [if_neg hc]
        exact Nat.add_comm 0 (List.countP (fun m => !(sc m).dirExists && !(sc m).httpOk) ms)
  · intro outDir gameDir mods sc sc' fs m hagree hnm
    unfold poolResults
    apply List.map_congr_left
    intro x hx
    rw [hagree x (fun hxm => hnm (hxm ▸ hx))]
  · intro env mods bm hgd hod hbi hread hne
    have hok : ∃ s, (_download_and_install_mods (env.out_dir.getD env.tmp_dir) mods
        env.remote env.game_dir env.fs).res = Except.ok s := by
      cases mods with
      | nil => exact absurd rfl hne
      | cons m ms => exact ⟨_, rfl⟩
    obtain ⟨s, hs⟩ := hok
    have hafter : mainAfterParse env mods bm = ⟨Except.ok 0, some s,
        (_download_and_install_mods (env.out_dir.getD env.tmp_dir) mods env.remote
          env.game_dir env.fs).events⟩ := by
      unfold mainAfterParse
      rw [if_neg (by simp [hbi]), hs]
    have hmain : main env = ⟨Except.ok 0, some s,
        (_download_and_install_mods (env.out_dir.getD env.tmp_dir) mods env.remote
          env.game_dir env.fs).events⟩ := by
      unfold main
      rw [if_neg (by simp [hgd]), if_neg (by simp [hod]), hread]
      exact hafter
    rw [hmain]

/-- Claim C6 (witness): a concrete run with two regular packages in which the
first package's download fails; its tuple is (0, 0, 1), the run still exits
0, and the printed summary is 1/2 downloaded, 1/2 installed, 1 error. -/
theorem claim_C6_witness :
    (_download_and_install_mod (str "tmp") ⟨str "a", str "Alpha", str "1", []⟩
        ⟨false, false, [], []⟩ (str "game") ⟨fun _ => false⟩).triple = (0, 0, 1)
    ∧ (main envC6).exit = Except.ok 0
    ∧ (main envC6).summary = some (1, 1, 1, 2) :=
  ⟨claim_C6.1 (str "tmp") ⟨str "a", str "Alpha", str "1", []⟩ ⟨false, false, [], []⟩
      (str "game") ⟨fun _ => false⟩ rfl rfl,
   claim_C6.2.2.2 envC6
      [⟨str "a", str "Alpha", str "1", []⟩, ⟨str "b", str "Beta", str "1", []⟩] none
      rfl rfl rfl (by decide) (by decide),
   by decide⟩

end Downloader

namespace Downloader

/-- Claim C8 (counterexample): in the claimed scenario — game directory
without the framework, a mods file with one framework entry and two regular
entries, every download succeeding — the printed summary is 2/2 downloaded,
2/2 installed, 0 errors, not the claimed 3/3: the separately installed
framework is excluded from the pool's totals. -/
theorem claim_C8_counterexample :
    _read_mods envC8.mods_lines = Except.ok
      ([⟨str "a", str "Alpha", str "1", []⟩, ⟨str "b", str "Beta", str "1", []⟩],
        some ⟨str "bb", str "BepInExPack", str "5", []⟩)
    ∧ (main envC8).exit = Except.ok 0
    ∧ (main envC8).summary = some (2, 2, 0, 2)
    ∧ (main envC8).summary ≠ some (3, 3, 0, 3) :=
  ⟨by decide, by decide, by decide, by decide⟩

/-- Claim C8 (amended): in that scenario the framework is downloaded and
installed first, synchronously — its HTTP request and file copy open the
event trace — then the two regular packages are fetched and installed by the
worker pool, and the final printed summary reports 2/2 downloaded, 2/2
installed, 0 errors (the framework install is not counted in the summary
totals). -/
theorem claim_C8 :
    (main envC8).exit = Except.ok 0
    ∧ (main envC8).summary = some (2, 2, 0, 2)
    ∧ (main envC8).events =
      [Event.get (str "https://thunderstore.io/package/download/bb/BepInExPack/5"),
       Event.copied (str "game/core/BepInEx.dll"),
       Event.get (str "https://thunderstore.io/package/download/a/Alpha/1"),
       Event.copied (str "game/BepInEx/plugins/Alpha.dll"),
       Event.get (str "https://thunderstore.io/package/download/b/Beta/1"),
       Event.copied (str "game/BepInEx/plugins/Beta.dll")] :=
  ⟨by decide, by decide, by decide⟩

end Downloader
